import Mathlib

/-!
Shallow embedding of the evaluation/metrics core of the
Chicken-Disease-Classification repository
(src/cnnClassifier/components/evaluation.py and
src/cnnClassifier/utils/common.py), together with theorems checking the
natural-language specification against it.

Label sequences are lists of natural numbers; real-valued metrics are
modelled as rationals (the Python code computes them in IEEE doubles from
integer counts; every value here is an exact small ratio of counts, so the
rational model is faithful for the properties proved).  A computation that
raises a Python exception is modelled as returning `none`.
-/

namespace CnnClassifier

/-- Support of class `c`: the number of entries of the true-label sequence
equal to `c` (sklearn `precision_recall_fscore_support` returns this as
`support`). -/
def support (yTrue : List ℕ) (c : ℕ) : ℕ :=
  yTrue.countP (fun a => a == c)

/-- Number of samples predicted as class `c` (the denominator of sklearn's
precision for class `c`). -/
def predictedPositive (yPred : List ℕ) (c : ℕ) : ℕ :=
  yPred.countP (fun b => b == c)

/-- Number of samples whose true label and predicted label are both `c`,
pairing the two sequences index by index. -/
def truePositive (yTrue yPred : List ℕ) (c : ℕ) : ℕ :=
  (List.zip yTrue yPred).countP (fun ab => ab.1 == c && ab.2 == c)

/-- Per-class precision as sklearn computes it with the default
`zero_division` handling: 0 when the class is never predicted, else
true positives over predicted positives. -/
def precision (yTrue yPred : List ℕ) (c : ℕ) : ℚ :=
  if predictedPositive yPred c = 0 then 0
  else (truePositive yTrue yPred c : ℚ) / (predictedPositive yPred c : ℚ)

/-- Per-class recall as sklearn computes it: 0 when the class has no true
instances, else true positives over support. -/
def «recall» (yTrue yPred : List ℕ) (c : ℕ) : ℚ :=
  if support yTrue c = 0 then 0
  else (truePositive yTrue yPred c : ℚ) / (support yTrue c : ℚ)

/-- Per-class F1 as sklearn computes it: 0 when precision and recall are
both 0, else their harmonic mean. -/
def f1_score (yTrue yPred : List ℕ) (c : ℕ) : ℚ :=
  if precision yTrue yPred c + «recall» yTrue yPred c = 0 then 0
  else 2 * precision yTrue yPred c * «recall» yTrue yPred c
    / (precision yTrue yPred c + «recall» yTrue yPred c)

/-- The label set sklearn's `confusion_matrix` uses when no `labels=`
argument is passed (as in `calculate_metrics`): the sorted distinct labels
occurring in either sequence. -/
def cmLabels (yTrue yPred : List ℕ) : List ℕ :=
  ((yTrue ++ yPred).dedup).insertionSort (· ≤ ·)

/-- sklearn `confusion_matrix(y_true, y_pred)` with no `labels=` argument:
a square matrix over `cmLabels`, cell (i, j) counting index positions whose
true label is the i-th and predicted label the j-th element of `cmLabels`. -/
def confusion_matrix (yTrue yPred : List ℕ) : List (List ℕ) :=
  (cmLabels yTrue yPred).map (fun t =>
    (cmLabels yTrue yPred).map (fun p =>
      (List.zip yTrue yPred).countP (fun ab => ab.1 == t && ab.2 == p)))

/-- One entry of the per-class metrics dictionary built by
`calculate_metrics`. -/
structure ClassMetrics where
  precision : ℚ
  «recall» : ℚ
  f1_score : ℚ
  support : ℕ
deriving DecidableEq, Repr

/-- The overall-metrics dictionary built by `calculate_metrics`. -/
structure OverallMetrics where
  macro_precision : ℚ
  macro_recall : ℚ
  macro_f1_score : ℚ
  weighted_precision : ℚ
  weighted_recall : ℚ
  weighted_f1_score : ℚ
deriving DecidableEq, Repr

/-- Everything `calculate_metrics` stores: the confusion matrix, the
per-class metrics for classes `0..K-1` in order, and the overall metrics. -/
structure MetricsOutput where
  confusion_matrix : List (List ℕ)
  class_metrics : List ClassMetrics
  overall_metrics : OverallMetrics
deriving DecidableEq, Repr

/-- Total support summed over classes `0..K-1` — the weight total that
`np.average(..., weights=support)` normalises by. -/
def totalSupport (yTrue : List ℕ) (K : ℕ) : ℕ :=
  ((List.range K).map (support yTrue)).sum

/-- Shallow embedding of `Evaluation.calculate_metrics` as a function of the
aligned label sequences and the class count `K = len(class_labels)`.  The
two `none` branches are the two exceptions the Python code can raise on such
input: sklearn's `check_consistent_length` raises `ValueError` when the
sequences differ in length, and `np.average(..., weights=support)` raises
`ZeroDivisionError` when the supports sum to zero (which also covers
`K = 0`, where `np.mean` of an empty slice would be NaN).  Otherwise the
code raises nothing and produces exactly these values. -/
def calculate_metrics (yTrue yPred : List ℕ) (K : ℕ) : Option MetricsOutput :=
  if yTrue.length ≠ yPred.length then none
  else if totalSupport yTrue K = 0 then none
  else some
    { confusion_matrix := confusion_matrix yTrue yPred
      class_metrics := (List.range K).map (fun c =>
        { precision := precision yTrue yPred c
          «recall» := «recall» yTrue yPred c
          f1_score := f1_score yTrue yPred c
          support := support yTrue c })
      overall_metrics :=
        { macro_precision := ((List.range K).map (precision yTrue yPred)).sum / (K : ℚ)
          macro_recall := ((List.range K).map («recall» yTrue yPred)).sum / (K : ℚ)
          macro_f1_score := ((List.range K).map (f1_score yTrue yPred)).sum / (K : ℚ)
          weighted_precision :=
            ((List.range K).map (fun c => precision yTrue yPred c * (support yTrue c : ℚ))).sum
              / (totalSupport yTrue K : ℚ)
          weighted_recall :=
            ((List.range K).map (fun c => «recall» yTrue yPred c * (support yTrue c : ℚ))).sum
              / (totalSupport yTrue K : ℚ)
          weighted_f1_score :=
            ((List.range K).map (fun c => f1_score yTrue yPred c * (support yTrue c : ℚ))).sum
              / (totalSupport yTrue K : ℚ) } }

lemma countP_fst_zip {yTrue yPred : List ℕ} (h : yTrue.length = yPred.length)
    (q : ℕ → Bool) :
    (List.zip yTrue yPred).countP (fun ab => q ab.1) = yTrue.countP q := by
  have hm := List.map_fst_zip yTrue yPred h.le
  calc (List.zip yTrue yPred).countP (fun ab => q ab.1)
      = ((List.zip yTrue yPred).map Prod.fst).countP q := by
        rw [List.countP_map]; rfl
    _ = yTrue.countP q := by rw [hm]

lemma countP_snd_zip {yTrue yPred : List ℕ} (h : yTrue.length = yPred.length)
    (q : ℕ → Bool) :
    (List.zip yTrue yPred).countP (fun ab => q ab.2) = yPred.countP q := by
  have hm := List.map_snd_zip yTrue yPred h.ge
  calc (List.zip yTrue yPred).countP (fun ab => q ab.2)
      = ((List.zip yTrue yPred).map Prod.snd).countP q := by
        rw [List.countP_map]; rfl
    _ = yPred.countP q := by rw [hm]

lemma truePositive_le_predictedPositive {yTrue yPred : List ℕ}
    (h : yTrue.length = yPred.length) (c : ℕ) :
    truePositive yTrue yPred c ≤ predictedPositive yPred c := by
  unfold truePositive predictedPositive
  calc (List.zip yTrue yPred).countP (fun ab => ab.1 == c && ab.2 == c)
      ≤ (List.zip yTrue yPred).countP (fun ab => ab.2 == c) :=
        List.countP_mono_left (fun ab _ hab => (Bool.and_eq_true _ _ |>.mp hab).2)
    _ = yPred.countP (fun b => b == c) := countP_snd_zip h (fun b => b == c)

lemma truePositive_le_support {yTrue yPred : List ℕ}
    (h : yTrue.length = yPred.length) (c : ℕ) :
    truePositive yTrue yPred c ≤ support yTrue c := by
  unfold truePositive support
  calc (List.zip yTrue yPred).countP (fun ab => ab.1 == c && ab.2 == c)
      ≤ (List.zip yTrue yPred).countP (fun ab => ab.1 == c) :=
        List.countP_mono_left (fun ab _ hab => (Bool.and_eq_true _ _ |>.mp hab).1)
    _ = yTrue.countP (fun a => a == c) := countP_fst_zip h (fun a => a == c)

lemma precision_nonneg (yTrue yPred : List ℕ) (c : ℕ) :
    0 ≤ precision yTrue yPred c := by
  unfold precision
  split
  · exact le_refl 0
  · exact div_nonneg (Nat.cast_nonneg _) (Nat.cast_nonneg _)

lemma precision_le_one {yTrue yPred : List ℕ} (h : yTrue.length = yPred.length)
    (c : ℕ) : precision yTrue yPred c ≤ 1 := by
  unfold precision
  split
  · exact zero_le_one
  · exact div_le_one_of_le₀ (Nat.cast_le.mpr (truePositive_le_predictedPositive h c))
      (Nat.cast_nonneg _)

lemma recall_nonneg (yTrue yPred : List ℕ) (c : ℕ) :
    0 ≤ «recall» yTrue yPred c := by
  unfold «recall»
  split
  · exact le_refl 0
  · exact div_nonneg (Nat.cast_nonneg _) (Nat.cast_nonneg _)

lemma recall_le_one {yTrue yPred : List ℕ} (h : yTrue.length = yPred.length)
    (c : ℕ) : «recall» yTrue yPred c ≤ 1 := by
  unfold «recall»
  split
  · exact zero_le_one
  · exact div_le_one_of_le₀ (Nat.cast_le.mpr (truePositive_le_support h c))
      (Nat.cast_nonneg _)

lemma f1_nonneg (yTrue yPred : List ℕ) (c : ℕ) :
    0 ≤ f1_score yTrue yPred c := by
  unfold f1_score
  have hp := precision_nonneg yTrue yPred c
  have hr := recall_nonneg yTrue yPred c
  split
  · exact le_refl 0
  · positivity

lemma f1_le_one {yTrue yPred : List ℕ} (h : yTrue.length = yPred.length)
    (c : ℕ) : f1_score yTrue yPred c ≤ 1 := by
  have hp0 := precision_nonneg yTrue yPred c
  have hr0 := recall_nonneg yTrue yPred c
  have hp1 := precision_le_one h c
  have hr1 := recall_le_one h c
  unfold f1_score
  split
  · exact zero_le_one
  · rename_i hpr
    have hpos : 0 < precision yTrue yPred c + «recall» yTrue yPred c :=
      lt_of_le_of_ne (by linarith) (Ne.symm hpr)
    rw [div_le_one hpos]
    nlinarith [mul_nonneg hp0 (sub_nonneg.mpr hr1), mul_nonneg hr0 (sub_nonneg.mpr hp1)]

lemma precision_eq_zero_of_no_pred {yTrue yPred : List ℕ} {c : ℕ}
    (h : predictedPositive yPred c = 0) : precision yTrue yPred c = 0 := by
  unfold precision
  simp [h]

lemma recall_eq_zero_of_no_support {yTrue yPred : List ℕ} {c : ℕ}
    (h : support yTrue c = 0) : «recall» yTrue yPred c = 0 := by
  unfold «recall»
  simp [h]

lemma f1_eq_zero_of_both_zero {yTrue yPred : List ℕ} {c : ℕ}
    (hp : precision yTrue yPred c = 0) (hr : «recall» yTrue yPred c = 0) :
    f1_score yTrue yPred c = 0 := by
  unfold f1_score
  simp [hp, hr]

lemma calculate_metrics_eq_some {yTrue yPred : List ℕ} {K : ℕ} {out : MetricsOutput}
    (h : calculate_metrics yTrue yPred K = some out) :
    yTrue.length = yPred.length ∧ totalSupport yTrue K ≠ 0 ∧
    out =
      { confusion_matrix := confusion_matrix yTrue yPred
        class_metrics := (List.range K).map (fun c =>
          { precision := precision yTrue yPred c
            «recall» := «recall» yTrue yPred c
            f1_score := f1_score yTrue yPred c
            support := support yTrue c })
        overall_metrics :=
          { macro_precision := ((List.range K).map (precision yTrue yPred)).sum / (K : ℚ)
            macro_recall := ((List.range K).map («recall» yTrue yPred)).sum / (K : ℚ)
            macro_f1_score := ((List.range K).map (f1_score yTrue yPred)).sum / (K : ℚ)
            weighted_precision :=
              ((List.range K).map (fun c => precision yTrue yPred c * (support yTrue c : ℚ))).sum
                / (totalSupport yTrue K : ℚ)
            weighted_recall :=
              ((List.range K).map (fun c => «recall» yTrue yPred c * (support yTrue c : ℚ))).sum
                / (totalSupport yTrue K : ℚ)
            weighted_f1_score :=
              ((List.range K).map (fun c => f1_score yTrue yPred c * (support yTrue c : ℚ))).sum
                / (totalSupport yTrue K : ℚ) } } := by
  unfold calculate_metrics at h
  split at h
  · cases h
  · split at h
    · cases h
    · rename_i h1 h2
      exact ⟨not_not.mp h1, h2, (Option.some_inj.mp h).symm⟩

lemma K_pos_of_totalSupport_ne_zero {yTrue : List ℕ} {K : ℕ}
    (h : totalSupport yTrue K ≠ 0) : 0 < K := by
  rcases K with _ | k
  · exact absurd rfl h
  · exact Nat.succ_pos k

lemma range_map_sum_nonneg {K : ℕ} {f : ℕ → ℚ}
    (h0 : ∀ c ∈ List.range K, 0 ≤ f c) : 0 ≤ ((List.range K).map f).sum := by
  have := List.sum_le_sum (l := List.range K) (f := fun _ => (0 : ℚ)) (g := f) h0
  simpa using this

lemma macro_mem_unit {K : ℕ} (hK : 0 < K) (f : ℕ → ℚ)
    (h0 : ∀ c ∈ List.range K, 0 ≤ f c) (h1 : ∀ c ∈ List.range K, f c ≤ 1) :
    0 ≤ ((List.range K).map f).sum / (K : ℚ) ∧
      ((List.range K).map f).sum / (K : ℚ) ≤ 1 := by
  have hKq : (0 : ℚ) < (K : ℚ) := by exact_mod_cast hK
  constructor
  · exact div_nonneg (range_map_sum_nonneg h0) hKq.le
  · rw [div_le_one hKq]
    have hle : ((List.range K).map f).sum ≤ ((List.range K).map f).length • (1 : ℚ) :=
      List.sum_le_card_nsmul _ 1 (by
        intro x hx
        rcases List.mem_map.mp hx with ⟨c, hc, rfl⟩
        exact h1 c hc)
    simpa using hle

lemma totalSupport_cast (yTrue : List ℕ) (K : ℕ) :
    ((totalSupport yTrue K : ℕ) : ℚ) =
      ((List.range K).map (fun c => (support yTrue c : ℚ))).sum := by
  unfold totalSupport
  rw [Nat.cast_list_sum, List.map_map]
  rfl

lemma weighted_mem_unit (yTrue : List ℕ) {K : ℕ}
    (hT : totalSupport yTrue K ≠ 0) (f : ℕ → ℚ)
    (h0 : ∀ c ∈ List.range K, 0 ≤ f c) (h1 : ∀ c ∈ List.range K, f c ≤ 1) :
    0 ≤ ((List.range K).map (fun c => f c * (support yTrue c : ℚ))).sum
        / (totalSupport yTrue K : ℚ) ∧
      ((List.range K).map (fun c => f c * (support yTrue c : ℚ))).sum
        / (totalSupport yTrue K : ℚ) ≤ 1 := by
  have hTq : (0 : ℚ) < (totalSupport yTrue K : ℚ) := by
    exact_mod_cast Nat.pos_of_ne_zero hT
  have hnum0 : 0 ≤ ((List.range K).map (fun c => f c * (support yTrue c : ℚ))).sum :=
    range_map_sum_nonneg (fun c hc => mul_nonneg (h0 c hc) (Nat.cast_nonneg _))
  constructor
  · exact div_nonneg hnum0 hTq.le
  · rw [div_le_one hTq, totalSupport_cast]
    exact List.sum_le_sum (fun c hc =>
      mul_le_of_le_one_left (Nat.cast_nonneg _) (h1 c hc))

/-- C1: every per-class precision, recall and f1_score that
`calculate_metrics` outputs lies in [0, 1]; each is exactly 0 whenever its
denominator is 0 (precision when the class is never predicted, recall when
the class has zero support, f1 when precision and recall are both 0); and
every overall metric also lies in [0, 1].  All fields are exact rationals in
the unit interval, so no produced field is NaN or infinite. -/
theorem metrics_unit_interval_and_zero_fallbacks
    (yTrue yPred : List ℕ) (K : ℕ) (out : MetricsOutput)
    (h : calculate_metrics yTrue yPred K = some out) :
    (∀ c m, out.class_metrics[c]? = some m →
      (0 ≤ m.precision ∧ m.precision ≤ 1) ∧
      (0 ≤ m.«recall» ∧ m.«recall» ≤ 1) ∧
      (0 ≤ m.f1_score ∧ m.f1_score ≤ 1) ∧
      (predictedPositive yPred c = 0 → m.precision = 0) ∧
      (support yTrue c = 0 → m.«recall» = 0) ∧
      (m.precision = 0 ∧ m.«recall» = 0 → m.f1_score = 0)) ∧
    (0 ≤ out.overall_metrics.macro_precision ∧
      out.overall_metrics.macro_precision ≤ 1) ∧
    (0 ≤ out.overall_metrics.macro_recall ∧
      out.overall_metrics.macro_recall ≤ 1) ∧
    (0 ≤ out.overall_metrics.macro_f1_score ∧
      out.overall_metrics.macro_f1_score ≤ 1) ∧
    (0 ≤ out.overall_metrics.weighted_precision ∧
      out.overall_metrics.weighted_precision ≤ 1) ∧
    (0 ≤ out.overall_metrics.weighted_recall ∧
      out.overall_metrics.weighted_recall ≤ 1) ∧
    (0 ≤ out.overall_metrics.weighted_f1_score ∧
      out.overall_metrics.weighted_f1_score ≤ 1) := by
  obtain ⟨hlen, hT, rfl⟩ := calculate_metrics_eq_some h
  have hK : 0 < K := K_pos_of_totalSupport_ne_zero hT
  have hp0 : ∀ c ∈ List.range K, 0 ≤ precision yTrue yPred c :=
    fun c _ => precision_nonneg yTrue yPred c
  have hp1 : ∀ c ∈ List.range K, precision yTrue yPred c ≤ 1 :=
    fun c _ => precision_le_one hlen c
  have hr0 : ∀ c ∈ List.range K, 0 ≤ «recall» yTrue yPred c :=
    fun c _ => recall_nonneg yTrue yPred c
  have hr1 : ∀ c ∈ List.range K, «recall» yTrue yPred c ≤ 1 :=
    fun c _ => recall_le_one hlen c
  have hf0 : ∀ c ∈ List.range K, 0 ≤ f1_score yTrue yPred c :=
    fun c _ => f1_nonneg yTrue yPred c
  have hf1 : ∀ c ∈ List.range K, f1_score yTrue yPred c ≤ 1 :=
    fun c _ => f1_le_one hlen c
  refine ⟨?_, macro_mem_unit hK _ hp0 hp1, macro_mem_unit hK _ hr0 hr1,
    macro_mem_unit hK _ hf0 hf1, weighted_mem_unit yTrue hT _ hp0 hp1,
    weighted_mem_unit yTrue hT _ hr0 hr1, weighted_mem_unit yTrue hT _ hf0 hf1⟩
  intro c m hm
  rw [List.getElem?_map] at hm
  rcases Nat.lt_or_ge c K with hc | hc
  · rw [List.getElem?_range hc] at hm
    simp only [Option.map_some'] at hm
    cases hm
    refine ⟨⟨precision_nonneg yTrue yPred c, precision_le_one hlen c⟩,
      ⟨recall_nonneg yTrue yPred c, recall_le_one hlen c⟩,
      ⟨f1_nonneg yTrue yPred c, f1_le_one hlen c⟩,
      fun hpp => precision_eq_zero_of_no_pred hpp,
      fun hs => recall_eq_zero_of_no_support hs,
      fun hboth => f1_eq_zero_of_both_zero hboth.1 hboth.2⟩
  · rw [List.getElem?_eq_none (by simpa using hc)] at hm
    cases hm

/-- Output of `calculate_metrics` on the 1-sample run used as a witness
input; written exactly as the body of `calculate_metrics` so the equation
holds by unfolding. -/
def witnessOut1 : MetricsOutput :=
  { confusion_matrix := confusion_matrix [0] [0]
    class_metrics := (List.range 1).map (fun c =>
      { precision := precision [0] [0] c
        «recall» := «recall» [0] [0] c
        f1_score := f1_score [0] [0] c
        support := support [0] c })
    overall_metrics :=
      { macro_precision := ((List.range 1).map (precision [0] [0])).sum / ((1 : ℕ) : ℚ)
        macro_recall := ((List.range 1).map («recall» [0] [0])).sum / ((1 : ℕ) : ℚ)
        macro_f1_score := ((List.range 1).map (f1_score [0] [0])).sum / ((1 : ℕ) : ℚ)
        weighted_precision :=
          ((List.range 1).map (fun c => precision [0] [0] c * (support [0] c : ℚ))).sum
            / (totalSupport [0] 1 : ℚ)
        weighted_recall :=
          ((List.range 1).map (fun c => «recall» [0] [0] c * (support [0] c : ℚ))).sum
            / (totalSupport [0] 1 : ℚ)
        weighted_f1_score :=
          ((List.range 1).map (fun c => f1_score [0] [0] c * (support [0] c : ℚ))).sum
            / (totalSupport [0] 1 : ℚ) } }

/-- Witness for C1 at the concrete run with one sample of one class. -/
theorem metrics_unit_interval_and_zero_fallbacks_witness :
    0 ≤ witnessOut1.overall_metrics.macro_precision ∧
      witnessOut1.overall_metrics.macro_precision ≤ 1 :=
  (metrics_unit_interval_and_zero_fallbacks [0] [0] 1 witnessOut1 rfl).2.1

lemma mem_cmLabels {yTrue yPred : List ℕ} {a : ℕ} :
    a ∈ cmLabels yTrue yPred ↔ (a ∈ yTrue ∨ a ∈ yPred) := by
  unfold cmLabels
  rw [List.Perm.mem_iff (List.perm_insertionSort _ _), List.mem_dedup, List.mem_append]

lemma cmLabels_nodup (yTrue yPred : List ℕ) : (cmLabels yTrue yPred).Nodup :=
  (List.perm_insertionSort _ _).nodup_iff.mpr (yTrue ++ yPred).nodup_dedup

lemma cmLabels_sorted (yTrue yPred : List ℕ) :
    (cmLabels yTrue yPred).Sorted (· ≤ ·) :=
  List.sorted_insertionSort _ _

lemma sum_map_ite_count {ls : List ℕ} (hnd : ls.Nodup) {v : ℕ} (hv : v ∈ ls) :
    (ls.map (fun p => if v = p then (1 : ℕ) else 0)).sum = 1 := by
  induction ls with
  | nil => cases hv
  | cons b l ih =>
    rcases List.mem_cons.mp hv with rfl | hv'
    · have hb : v ∉ l := (List.nodup_cons.mp hnd).1
      have hz : (l.map (fun p => if v = p then (1 : ℕ) else 0)).sum = 0 := by
        apply List.sum_eq_zero
        intro x hx
        rcases List.mem_map.mp hx with ⟨p, hp, rfl⟩
        have : v ≠ p := fun hvp => hb (hvp ▸ hp)
        simp [this]
      simp [hz]
    · have hb : v ≠ b := by
        rintro rfl
        exact (List.nodup_cons.mp hnd).1 hv'
      have := ih (List.nodup_cons.mp hnd).2 hv'
      simp [hb, this]

lemma sum_countP_split (q : ℕ × ℕ → Bool) (f : ℕ × ℕ → ℕ) (ls : List ℕ)
    (hnd : ls.Nodup) :
    ∀ l : List (ℕ × ℕ), (∀ ab ∈ l, q ab = true → f ab ∈ ls) →
      (ls.map (fun p => l.countP (fun ab => q ab && (f ab == p)))).sum = l.countP q := by
  intro l
  induction l with
  | nil => simp
  | cons ab l ih =>
    intro hmem
    have hmem' : ∀ x ∈ l, q x = true → f x ∈ ls :=
      fun x hx => hmem x (List.mem_cons_of_mem _ hx)
    have hsplit :
        (ls.map (fun p => (ab :: l).countP (fun x => q x && (f x == p)))).sum =
          (ls.map (fun p => l.countP (fun x => q x && (f x == p)))).sum +
            (ls.map (fun p => if (q ab && (f ab == p)) = true then (1 : ℕ) else 0)).sum := by
      rw [← List.sum_map_add]
      apply congrArg List.sum
      apply List.map_congr_left
      intro p _
      rw [List.countP_cons]
    rw [hsplit, ih hmem', List.countP_cons]
    congr 1
    by_cases hq : q ab = true
    · have hf : f ab ∈ ls := hmem ab (List.mem_cons_self ab l) hq
      calc (ls.map (fun p => if (q ab && (f ab == p)) = true then (1 : ℕ) else 0)).sum
          = (ls.map (fun p => if f ab = p then (1 : ℕ) else 0)).sum := by
            apply congrArg List.sum
            apply List.map_congr_left
            intro p _
            simp [hq, beq_iff_eq]
        _ = 1 := sum_map_ite_count hnd hf
        _ = if q ab = true then 1 else 0 := by simp [hq]
    · have hq' : q ab = false := by simpa using hq
      simp [hq']

lemma row_sum_eq (yTrue yPred : List ℕ) (t : ℕ) :
    ((cmLabels yTrue yPred).map (fun p =>
      (List.zip yTrue yPred).countP (fun ab => ab.1 == t && ab.2 == p))).sum =
      (List.zip yTrue yPred).countP (fun ab => ab.1 == t) := by
  apply sum_countP_split (fun ab => ab.1 == t) Prod.snd (cmLabels yTrue yPred)
    (cmLabels_nodup yTrue yPred)
  intro ab hab _
  exact mem_cmLabels.mpr (Or.inr (List.of_mem_zip hab).2)

lemma total_sum_eq (yTrue yPred : List ℕ) :
    ((cmLabels yTrue yPred).map (fun t =>
      (List.zip yTrue yPred).countP (fun ab => ab.1 == t))).sum =
      (List.zip yTrue yPred).length := by
  have hs := sum_countP_split (fun _ => true) Prod.fst (cmLabels yTrue yPred)
    (cmLabels_nodup yTrue yPred) (List.zip yTrue yPred)
    (fun ab hab _ => mem_cmLabels.mpr (Or.inl (List.of_mem_zip hab).1))
  calc ((cmLabels yTrue yPred).map (fun t =>
        (List.zip yTrue yPred).countP (fun ab => ab.1 == t))).sum
      = ((cmLabels yTrue yPred).map (fun t =>
        (List.zip yTrue yPred).countP (fun ab => true && (ab.1 == t)))).sum := by
        apply congrArg List.sum
        apply List.map_congr_left
        intro p _
        apply congrArg (fun f => List.countP f (List.zip yTrue yPred))
        funext ab
        rw [Bool.true_and]
    _ = (List.zip yTrue yPred).countP (fun _ => true) := hs
    _ = (List.zip yTrue yPred).length := congrFun List.countP_true _

/-- C2: for every confusion matrix the metrics engine produces from N
aligned (true, predicted) pairs, the sum of all cells is N, and each row's
sum is the support of the class that row stands for (the count of samples
whose true label is that class). -/
theorem confusion_matrix_cell_and_row_sums (yTrue yPred : List ℕ)
    (h : yTrue.length = yPred.length) :
    ((confusion_matrix yTrue yPred).map List.sum).sum = yTrue.length ∧
    (∀ (i t : ℕ), (cmLabels yTrue yPred)[i]? = some t →
      ((confusion_matrix yTrue yPred)[i]?).map List.sum =
        some (support yTrue t)) := by
  constructor
  · unfold confusion_matrix
    rw [List.map_map]
    have hrows : (List.sum ∘ fun t => (cmLabels yTrue yPred).map (fun p =>
        (List.zip yTrue yPred).countP (fun ab => ab.1 == t && ab.2 == p))) =
        fun t => (List.zip yTrue yPred).countP (fun ab => ab.1 == t) := by
      funext t
      exact row_sum_eq yTrue yPred t
    rw [hrows, total_sum_eq, List.length_zip, h, Nat.min_self]
  · intro i t ht
    unfold confusion_matrix
    rw [List.getElem?_map, ht, Option.map_some', Option.map_some']
    rw [row_sum_eq yTrue yPred t]
    rw [countP_fst_zip h (fun a => a == t)]
    rfl

/-- Witness for C2 at a 2-sample run: the cells sum to 2 and row 0 sums to
the support of class 0. -/
theorem confusion_matrix_cell_and_row_sums_witness :
    ((confusion_matrix [0, 1] [0, 0]).map List.sum).sum = [0, 1].length ∧
    ((confusion_matrix [0, 1] [0, 0])[0]?).map List.sum =
      some (support [0, 1] 0) :=
  ⟨(confusion_matrix_cell_and_row_sums [0, 1] [0, 0] rfl).1,
    (confusion_matrix_cell_and_row_sums [0, 1] [0, 0] rfl).2 0 0 (by decide)⟩

/-- C3 counterexample: in the degenerate case where every class has support
0 (here: empty label sequences), `calculate_metrics` raises
`ZeroDivisionError` inside `np.average` and produces no metrics at all — it
does not output a weighted aggregate equal to 0. -/
theorem weighted_degenerate_not_zero :
    ¬ ∃ out : MetricsOutput, calculate_metrics [] [] 1 = some out ∧
      out.overall_metrics.weighted_precision = 0 := by
  rintro ⟨out, hout, -⟩
  have h0 : calculate_metrics [] [] 1 = none := rfl
  rw [h0] at hout
  cases hout

/-- C3 amended: whenever `calculate_metrics` produces output, each weighted
aggregate equals sum(metric[c] * support[c]) / sum(support[c]) over the
per-class metrics; and in the degenerate case where every class has support
0 the engine raises (no output is produced, rather than a weighted aggregate
of 0). -/
theorem weighted_aggregates_formula (yTrue yPred : List ℕ) (K : ℕ) :
    (∀ out : MetricsOutput, calculate_metrics yTrue yPred K = some out →
      out.overall_metrics.weighted_precision =
        (out.class_metrics.map (fun m => m.precision * (m.support : ℚ))).sum
          / (out.class_metrics.map (fun m => (m.support : ℚ))).sum ∧
      out.overall_metrics.weighted_recall =
        (out.class_metrics.map (fun m => m.«recall» * (m.support : ℚ))).sum
          / (out.class_metrics.map (fun m => (m.support : ℚ))).sum ∧
      out.overall_metrics.weighted_f1_score =
        (out.class_metrics.map (fun m => m.f1_score * (m.support : ℚ))).sum
          / (out.class_metrics.map (fun m => (m.support : ℚ))).sum) ∧
    (totalSupport yTrue K = 0 → calculate_metrics yTrue yPred K = none) := by
  constructor
  · intro out h
    obtain ⟨hlen, hT, rfl⟩ := calculate_metrics_eq_some h
    refine ⟨?_, ?_, ?_⟩
    all_goals
      simp only [List.map_map]
      rw [totalSupport_cast]
      rfl
  · intro hT
    unfold calculate_metrics
    by_cases hl : yTrue.length ≠ yPred.length
    · rw [if_pos hl]
    · rw [if_neg hl, if_pos hT]

/-- Witness for C3: the weighted-aggregate formula at a concrete 1-sample
run, and the degenerate all-supports-zero run producing no output. -/
theorem weighted_aggregates_formula_witness :
    witnessOut1.overall_metrics.weighted_precision =
      (witnessOut1.class_metrics.map (fun m => m.precision * (m.support : ℚ))).sum
        / (witnessOut1.class_metrics.map (fun m => (m.support : ℚ))).sum ∧
    calculate_metrics [] [] 1 = none :=
  ⟨((weighted_aggregates_formula [0] [0] 1).1 witnessOut1 rfl).1,
    (weighted_aggregates_formula [] [] 1).2 rfl⟩

/-- C4 counterexample: with K = 3 classes but only label 0 occurring in the
true and predicted sequences, the produced confusion matrix has 1 row, not
3 — classes occurring in neither sequence get no row or column. -/
theorem confusion_matrix_omits_unseen_classes :
    ((calculate_metrics [0, 0] [0, 0] 3).map
      (fun out => out.confusion_matrix.length)) = some 1 ∧ (1 : ℕ) ≠ 3 :=
  ⟨rfl, by decide⟩

/-- C4 amended: the produced confusion matrix is L×L where L is the number
of distinct labels occurring in the true or the predicted sequence; its row
and column index set is those labels sorted ascending without duplicates
(so a class occurring in neither sequence has no row or column), and cell
(i, j) counts the samples whose true label is the i-th and predicted label
the j-th of those labels.  Cells are naturals, hence non-negative. -/
theorem confusion_matrix_dims_and_cells (yTrue yPred : List ℕ) :
    (confusion_matrix yTrue yPred).length = (cmLabels yTrue yPred).length ∧
    (∀ row ∈ confusion_matrix yTrue yPred,
      row.length = (cmLabels yTrue yPred).length) ∧
    (cmLabels yTrue yPred).Nodup ∧
    (cmLabels yTrue yPred).Sorted (· ≤ ·) ∧
    (∀ a : ℕ, a ∈ cmLabels yTrue yPred ↔ (a ∈ yTrue ∨ a ∈ yPred)) ∧
    (∀ (i j t p : ℕ), (cmLabels yTrue yPred)[i]? = some t →
      (cmLabels yTrue yPred)[j]? = some p →
      ((confusion_matrix yTrue yPred)[i]?).bind (fun row => row[j]?) =
        some ((List.zip yTrue yPred).countP
          (fun ab => ab.1 == t && ab.2 == p))) := by
  refine ⟨List.length_map _ _, ?_, cmLabels_nodup yTrue yPred,
    cmLabels_sorted yTrue yPred, fun a => mem_cmLabels, ?_⟩
  · intro row hrow
    rcases List.mem_map.mp hrow with ⟨t, _, rfl⟩
    exact List.length_map _ _
  · intro i j t p hi hj
    unfold confusion_matrix
    rw [List.getElem?_map, hi, Option.map_some', Option.some_bind,
      List.getElem?_map, hj, Option.map_some']

/-- Witness for C4 at a concrete 2-sample run with labels {0, 1}. -/
theorem confusion_matrix_dims_and_cells_witness :
    (confusion_matrix [0, 1] [0, 0]).length = (cmLabels [0, 1] [0, 0]).length ∧
    ((confusion_matrix [0, 1] [0, 0])[0]?).bind (fun row => row[1]?) =
      some ((List.zip [0, 1] [0, 0]).countP
        (fun ab => ab.1 == 0 && ab.2 == 1)) :=
  ⟨(confusion_matrix_dims_and_cells [0, 1] [0, 0]).1,
    (confusion_matrix_dims_and_cells [0, 1] [0, 0]).2.2.2.2.2 0 1 0 1
      (by decide) (by decide)⟩

/-- C5: the worked example: K = 3, true labels [0,0,1,1,2], predicted labels
[0,1,1,2,2] give confusion matrix [[1,1,0],[0,1,1],[0,0,1]], per-class
metrics cat (1, 1/2, 2/3, support 2), dog (1/2, 1/2, 1/2, support 2), fish
(1/2, 1, 2/3, support 1), macro precision 2/3 and weighted precision 7/10
(the spec's 0.667 values are the rationals 2/3). -/
theorem metrics_example_run :
    calculate_metrics [0, 0, 1, 1, 2] [0, 1, 1, 2, 2] 3 =
      some { confusion_matrix := [[1, 1, 0], [0, 1, 1], [0, 0, 1]]
             class_metrics :=
               [ { precision := 1, «recall» := 1/2, f1_score := 2/3, support := 2 }
               , { precision := 1/2, «recall» := 1/2, f1_score := 1/2, support := 2 }
               , { precision := 1/2, «recall» := 1, f1_score := 2/3, support := 1 } ]
             overall_metrics :=
               { macro_precision := 2/3, macro_recall := 2/3
                 macro_f1_score := 11/18, weighted_precision := 7/10
                 weighted_recall := 3/5, weighted_f1_score := 3/5 } } := by
  have hcm : confusion_matrix [0, 0, 1, 1, 2] [0, 1, 1, 2, 2] =
      [[1, 1, 0], [0, 1, 1], [0, 0, 1]] := by decide
  have hs0 : support [0, 0, 1, 1, 2] 0 = 2 := by decide
  have hs1 : support [0, 0, 1, 1, 2] 1 = 2 := by decide
  have hs2 : support [0, 0, 1, 1, 2] 2 = 1 := by decide
  have htp0 : truePositive [0, 0, 1, 1, 2] [0, 1, 1, 2, 2] 0 = 1 := by decide
  have htp1 : truePositive [0, 0, 1, 1, 2] [0, 1, 1, 2, 2] 1 = 1 := by decide
  have htp2 : truePositive [0, 0, 1, 1, 2] [0, 1, 1, 2, 2] 2 = 1 := by decide
  have hpp0 : predictedPositive [0, 1, 1, 2, 2] 0 = 1 := by decide
  have hpp1 : predictedPositive [0, 1, 1, 2, 2] 1 = 2 := by decide
  have hpp2 : predictedPositive [0, 1, 1, 2, 2] 2 = 2 := by decide
  have htot : totalSupport [0, 0, 1, 1, 2] 3 = 5 := by decide
  have hp0 : precision [0, 0, 1, 1, 2] [0, 1, 1, 2, 2] 0 = 1 := by
    unfold precision; rw [hpp0, htp0]; norm_num
  have hp1 : precision [0, 0, 1, 1, 2] [0, 1, 1, 2, 2] 1 = 1/2 := by
    unfold precision; rw [hpp1, htp1]; norm_num
  have hp2 : precision [0, 0, 1, 1, 2] [0, 1, 1, 2, 2] 2 = 1/2 := by
    unfold precision; rw [hpp2, htp2]; norm_num
  have hr0 : «recall» [0, 0, 1, 1, 2] [0, 1, 1, 2, 2] 0 = 1/2 := by
    unfold «recall»; rw [hs0, htp0]; norm_num
  have hr1 : «recall» [0, 0, 1, 1, 2] [0, 1, 1, 2, 2] 1 = 1/2 := by
    unfold «recall»; rw [hs1, htp1]; norm_num
  have hr2 : «recall» [0, 0, 1, 1, 2] [0, 1, 1, 2, 2] 2 = 1 := by
    unfold «recall»; rw [hs2, htp2]; norm_num
  have hf0 : f1_score [0, 0, 1, 1, 2] [0, 1, 1, 2, 2] 0 = 2/3 := by
    unfold f1_score; rw [hp0, hr0]; norm_num
  have hf1 : f1_score [0, 0, 1, 1, 2] [0, 1, 1, 2, 2] 1 = 1/2 := by
    unfold f1_score; rw [hp1, hr1]; norm_num
  have hf2 : f1_score [0, 0, 1, 1, 2] [0, 1, 1, 2, 2] 2 = 2/3 := by
    unfold f1_score; rw [hp2, hr2]; norm_num
  rw [calculate_metrics.eq_def]
  rw [if_neg (by decide), if_neg (by decide)]
  refine congrArg some ?_
  rw [show List.range 3 = [0, 1, 2] from rfl]
  simp only [List.map_cons, List.map_nil, List.sum_cons, List.sum_nil]
  rw [hp0, hp1, hp2, hr0, hr1, hr2, hf0, hf1, hf2, hs0, hs1, hs2, htot, hcm]
  norm_num

/-- C6 counterexample: a label index (5) outside 0..K-1 (here K = 3) raises
no error — `calculate_metrics` still produces metrics, contrary to the
claimed `ShapeMismatchError`. -/
theorem out_of_range_labels_no_error :
    (calculate_metrics [0, 5] [0, 5] 3).isSome = true := by decide

/-- C6 amended: the engine fails (producing no output, hence no report) when
the sequences differ in length (sklearn raises a generic `ValueError`, not a
dedicated `ShapeMismatchError`); when lengths match and some class in
0..K-1 has nonzero support it succeeds even if label indices lie outside
0..K-1 — out-of-range labels raise no error. -/
theorem calculate_metrics_failure_conditions (yTrue yPred : List ℕ) (K : ℕ) :
    (yTrue.length ≠ yPred.length → calculate_metrics yTrue yPred K = none) ∧
    (yTrue.length = yPred.length → totalSupport yTrue K ≠ 0 →
      (calculate_metrics yTrue yPred K).isSome = true) := by
  constructor
  · intro hl
    unfold calculate_metrics
    rw [if_pos hl]
  · intro hl hT
    unfold calculate_metrics
    rw [if_neg (fun h => h hl), if_neg hT]
    rfl

/-- Witness for C6: a shorter predicted sequence yields no output, while a
run containing the out-of-range label 5 succeeds. -/
theorem calculate_metrics_failure_conditions_witness :
    calculate_metrics [0] [0, 1] 1 = none ∧
      (calculate_metrics [0, 5] [1, 5] 1).isSome = true :=
  ⟨(calculate_metrics_failure_conditions [0] [0, 1] 1).1 (by decide),
    (calculate_metrics_failure_conditions [0, 5] [1, 5] 1).2 rfl (by decide)⟩

/-- C9: the metrics computation is a pure function of the (true, predicted)
sequences and the class count: two runs on equal inputs yield identical
confusion matrix, per-class metrics and aggregates. -/
theorem calculate_metrics_deterministic (t₁ t₂ p₁ p₂ : List ℕ) (K₁ K₂ : ℕ)
    (ht : t₁ = t₂) (hp : p₁ = p₂) (hK : K₁ = K₂) :
    calculate_metrics t₁ p₁ K₁ = calculate_metrics t₂ p₂ K₂ := by
  rw [ht, hp, hK]

/-- Witness for C9 at a concrete 2-sample run. -/
theorem calculate_metrics_deterministic_witness :
    calculate_metrics [0, 1] [1, 0] 2 = calculate_metrics [0, 1] [1, 0] 2 :=
  calculate_metrics_deterministic [0, 1] [0, 1] [1, 0] [1, 0] 2 2 rfl rfl rfl

/-- Shallow embedding of `save_json` (utils/common.py): the function runs
`open(path, "w")`, which truncates the file at `path` in place, and then
`json.dump(data, f)`.  The value is the sequence of contents an observer of
the path can see over time: the prior content, the empty truncated file,
then the complete new serialization.  There is no temporary file and no
rename in the source. -/
def save_json_observable (prior data : String) : List String :=
  [prior, "", data]

/-- C7 counterexample: between truncation and the completed write the report
path holds an empty file — an observable state that is neither the prior
report nor a complete new report, so the write is not atomic. -/
theorem save_json_not_atomic :
    "" ∈ save_json_observable "old_report" "new_report" ∧
      "" ≠ "old_report" ∧ "" ≠ "new_report" := by
  refine ⟨?_, by decide, by decide⟩
  simp [save_json_observable]

/-- C7 amended: `save_json` does overwrite the prior report and its final
observable state is the complete new report, but the write is a direct
truncate-then-write, not temporary-file-then-rename: the truncated empty
file is an intermediate observable state, so an observer (or a crash)
mid-write sees a partially written report. -/
theorem save_json_overwrites_but_not_atomically (prior data : String) :
    (save_json_observable prior data).head? = some prior ∧
    (save_json_observable prior data).getLast? = some data ∧
    "" ∈ save_json_observable prior data := by
  refine ⟨rfl, rfl, ?_⟩
  simp [save_json_observable]

/-- Modelled from the spec: `EvaluationConfig` is defined in
`cnnClassifier/entity/config_entity.py`, a file not among the sources; the
spec lists the configuration fields the core receives, including
`validation_split_fraction` (0 < f < 1) and the report output path. -/
structure EvaluationConfig where
  training_data : String
  path_of_model : String
  report_output_path : String
  params_image_size : List ℕ
  params_batch_size : ℕ
  validation_split_fraction : ℚ
deriving DecidableEq, Repr

/-- The keyword arguments `Evaluation._valid_generator` passes to
`ImageDataGenerator`. -/
structure DatageneratorKwargs where
  rescale : ℚ
  validation_split : ℚ
deriving DecidableEq, Repr

/-- Shallow embedding of the datagenerator construction in
`Evaluation._valid_generator`: the code writes the literals
`rescale = 1./255` and `validation_split = 0.20`, reading nothing from the
configuration. -/
def valid_generator_datagen_kwargs (_config : EvaluationConfig) :
    DatageneratorKwargs :=
  { rescale := 1 / 255, validation_split := 20 / 100 }

/-- C8 counterexample: with configured validation fraction 1/2 the builder
still splits with 0.20 — the partition fraction it uses differs from the
configured one. -/
theorem validation_split_ignores_config :
    (valid_generator_datagen_kwargs
      { training_data := "data", path_of_model := "model.h5"
        report_output_path := "report.json"
        params_image_size := [224, 224, 3]
        params_batch_size := 16
        validation_split_fraction := 1/2 }).validation_split = 20/100 ∧
      (20/100 : ℚ) ≠ 1/2 := by
  refine ⟨rfl, ?_⟩
  norm_num

/-- C8 amended: for every configuration the validation stream builder
partitions with the fixed fraction 0.20 hard-coded in `_valid_generator`;
the configured validation split fraction has no influence on the
partition. -/
theorem validation_split_constant (c₁ c₂ : EvaluationConfig) :
    (valid_generator_datagen_kwargs c₁).validation_split = 20/100 ∧
      valid_generator_datagen_kwargs c₁ = valid_generator_datagen_kwargs c₂ :=
  ⟨rfl, rfl⟩

/-- The filesystem effect of `Evaluation.save_score`: which path is written
and the sequence of observable contents there. -/
structure SaveScoreEffect where
  path : String
  states : List String
deriving DecidableEq, Repr

/-- Shallow embedding of `Evaluation.save_score`: it assembles the scores
record and calls `save_json(path = Path("scores.json"), data = scores)`.
`report` stands for the serialized scores record and `prior` for whatever
the path held before; the configuration is not consulted for the
destination. -/
def save_score (_config : EvaluationConfig) (prior report : String) :
    SaveScoreEffect :=
  { path := "scores.json", states := save_json_observable prior report }

/-- C10: `save_score` always writes the report to the fixed relative path
"scores.json", truncating and overwriting whatever is there, and the
configured report output path has no influence on the destination or the
write. -/
theorem save_score_fixed_path (c₁ c₂ : EvaluationConfig)
    (prior report : String) :
    (save_score c₁ prior report).path = "scores.json" ∧
    save_score c₁ prior report = save_score c₂ prior report ∧
    ((save_score c₁ prior report).states).getLast? = some report ∧
    "" ∈ (save_score c₁ prior report).states := by
  refine ⟨rfl, rfl, rfl, ?_⟩
  simp [save_score, save_json_observable]

end CnnClassifier
